import Mathlib

/-!
Verification of the calling-convention contract demonstrated by the
`python-fortran-interfacing` teaser notebook.

The repository compiles two tiny Fortran source files into a shared
library and calls them from Python through `ctypes` / `numpy.ctypeslib`:

* `subroutines.f90` (first version): scalar subroutines
  `square(a)` with body `a = a**2` and `square_root(b)` with body
  `b = SQRT(b)`, both on default `real` (single precision), arguments
  passed by reference;
* `subroutines.f90` (second version): the array subroutine
  `square(a, ij, ik)` with `real, dimension(ij,ik) :: a` and body
  `a = a**2`;
* `wrappers.f90`: `wrapper_square(a, ij, ik)` declared with
  `bind(c, name='wrapper_square')`, whose body is `call square(a,ij,ik)`.

The Python side boxes a scalar with `ctypes.c_float(python_float)`,
passes a pointer to the box, and reads the box back after the call; the
array example rewrites the buffer in Fortran (column-major) order with
`np.asfortranarray` before the call.  The notebook's `readelf` dumps
show the exported dynamic symbols: `square_` and `square_root_` for the
first build, `wrapper_square` and `square_` for the build with the
`bind(c)` wrapper.

We embed the numeric routines over exact numbers (`ℝ` for the scalar
chain, so that the mathematical square root is available, and `ℚ` for
the array buffers): the Fortran bodies are exact arithmetic on the
stored values, and the spec's "within floating-point rounding
tolerance" is discharged by exact equality, which lies within every
nonnegative tolerance.  The adapter operations the spec designs around
the notebook (`resolve`, `invoke`) and the toolchain's name mangling
are not implemented in the repository's sources; they are modelled from
the spec and validated against the notebook's `readelf` output.
-/

namespace FortranTeaser

/-! ## Scalar subroutines (`subroutines.f90`, first version) -/

/-- Body of `SUBROUTINE square(a)`: `a = a**2` on a single-precision
scalar, modelled exactly. -/
noncomputable def square (a : ℝ) : ℝ := a * a

/-- Body of `SUBROUTINE square_root(b)`: `b = SQRT(b)`, modelled by the
mathematical square root; for negative inputs the native routine's
result is whatever `SQRT` returns there (the call itself is total). -/
noncomputable def square_root (b : ℝ) : ℝ := Real.sqrt b

/-- The managed caller's state in the scalar demonstration: the
immutable Python float `python_float` and the contents of the mutable
`ctypes.c_float` box created from it (`ctypes_float`), which the native
routine mutates through `ctypes_pointer`. -/
structure CScalarState where
  python_float : ℝ
  ctypes_float : ℝ

/-- `ctypes_float = ctypes.c_float(python_float)`: boxing copies the
managed value into a fresh mutable cell. -/
def boxFloat (x : ℝ) : CScalarState := ⟨x, x⟩

/-- `fortran_routines.square_(ctypes_pointer)`: the native scalar
`square` mutates the pointee in place; the managed value is untouched. -/
noncomputable def square_ (s : CScalarState) : CScalarState :=
  { s with ctypes_float := square s.ctypes_float }

/-- `fortran_routines.square_root_(ctypes_pointer)`: the native
`square_root` mutates the pointee in place. -/
noncomputable def square_root_call (s : CScalarState) : CScalarState :=
  { s with ctypes_float := square_root s.ctypes_float }

/-! ## Array subroutine (`subroutines.f90`, second version) and the
`bind(c)` wrapper (`wrappers.f90`)

The Fortran array `a` of `SUBROUTINE square(a,ij,ik)` is a raw buffer
of `ij * ik` single-precision elements laid out in column-major order:
the element at (0-based) position `(i, j)` lives at linear offset
`i + j * ij`.  The dimension arguments `ij`, `ik` are `integer` scalars
passed by reference; the routine reads them but never assigns to them.
-/

/-- The state of an array call: the linear buffer (column-major) and
the two dimension arguments. -/
structure FortranArrayCall where
  a : List ℚ
  ij : ℕ
  ik : ℕ
  deriving DecidableEq, Repr

namespace Subroutines2

/-- `SUBROUTINE square(a,ij,ik)` with body `a = a**2`: every element of
the `ij × ik` array is replaced by its square; the dimension arguments
are left untouched. -/
def square (s : FortranArrayCall) : FortranArrayCall :=
  { s with a := s.a.map (fun x => x * x) }

end Subroutines2

namespace Wrappers

/-- `SUBROUTINE wrapper_square(a,ij,ik) bind(c, name='wrapper_square')`:
declares `c_int` dimensions and a `c_float` array (the same widths as
the wrapped routine's default `integer` and `real`) and forwards its
arguments unchanged via `call square(a,ij,ik)`. -/
def wrapper_square (s : FortranArrayCall) : FortranArrayCall :=
  Subroutines2.square s

end Wrappers

/-! ## Memory-order conversion (`np.asfortranarray` and its inverse)

A row-major buffer `d` of an `m × n` array stores element `(i, j)` at
offset `i * n + j`; the column-major buffer stores it at offset
`i + j * m`.  `np.asfortranarray` produces the column-major buffer of
the same logical array; converting back to row-major
(`np.ascontiguousarray`) inverts the permutation. -/

/-- Column-major buffer of an `m × n` array given its row-major buffer:
the element at column-major offset `idx` is `(idx % m, idx / m)` of the
logical array, i.e. row-major offset `idx % m * n + idx / m`. -/
def asfortranarray (m n : ℕ) (d : List ℚ) : List ℚ :=
  (List.range (m * n)).map (fun idx => d.getD (idx % m * n + idx / m) 0)

/-- Row-major buffer of an `m × n` array given its column-major buffer:
the element at row-major offset `idx` is `(idx / n, idx % n)` of the
logical array, i.e. column-major offset `idx / n + idx % n * m`. -/
def ascontiguousarray (m n : ℕ) (d : List ℚ) : List ℚ :=
  (List.range (m * n)).map (fun idx => d.getD (idx / n + idx % n * m) 0)

/-! ## Name mangling and symbol resolution

The toolchain behavior (gfortran's name mangling) and the adapter
operations `resolve` and `invoke` are described by the spec but not
implemented in the repository's sources, which only exhibit their
effect (the `readelf` symbol dumps and raw `ctypes` attribute access).
They are modelled from the spec below, and the mangling model is
checked against the notebook's `readelf` output. -/

/-- A Fortran routine declaration: the declared (source) name, and the
fixed external name when the declaration carries
`bind(c, name=...)`. -/
structure RoutineDecl where
  name : String
  bindName : Option String
  deriving DecidableEq

/-- Modelled from the spec: the compiler's deterministic name-mangling
transformation — absent an explicit binding, the exported symbol is the
declared name, case-preserved, with one trailing separator `_`
appended; with `bind(c, name=...)` the exported symbol is exactly the
declared external name. -/
def exportedName (d : RoutineDecl) : String :=
  match d.bindName with
  | some ext => ext
  | none => d.name ++ "_"

/-- The routine symbols a compiled shared unit exports for a list of
declarations. -/
def dynsymNames (decls : List RoutineDecl) : List String :=
  decls.map exportedName

/-- The declarations of `subroutines.f90`, first version. -/
def subroutines_f90_v1 : List RoutineDecl :=
  [⟨"square", none⟩, ⟨"square_root", none⟩]

/-- The declarations of `subroutines.f90`, second version. -/
def subroutines_f90_v2 : List RoutineDecl :=
  [⟨"square", none⟩]

/-- The declaration of `wrappers.f90`. -/
def wrappers_f90 : List RoutineDecl :=
  [⟨"wrapper_square", some "wrapper_square"⟩]

/-- The adapter's error taxonomy (the part exercised by symbol
resolution). -/
inductive AdapterError where
  | SymbolNotFoundError
  deriving DecidableEq

/-- A loaded shared unit: its dynamic symbol table, mapping exported
routine names to addresses. -/
structure SharedUnit where
  symbols : List (String × ℕ)
  deriving DecidableEq

/-- Modelled from the spec: the trailing-separator mangled variant of a
routine name. -/
def mangle (name : String) : String := name ++ "_"

/-- Modelled from the spec: `resolve(unit, name)` looks `name` up in
the loaded unit, falling back to the mangled variant, and fails with
`SymbolNotFoundError` when neither form exists. -/
def resolve (u : SharedUnit) (name : String) : Except AdapterError ℕ :=
  match u.symbols.lookup name with
  | some h => Except.ok h
  | none =>
    match u.symbols.lookup (mangle name) with
    | some h => Except.ok h
    | none => Except.error AdapterError.SymbolNotFoundError

/-- The dynamic symbol table of the first `subroutines.so` build, from
the notebook's `readelf --symbols` dump (`square_root_` at `0x5b9`,
`square_` at `0x59a`). -/
def subroutines_so : SharedUnit :=
  ⟨[("square_root_", 1465), ("square_", 1434)]⟩

/-- Modelled from the spec: `invoke(handle, args) -> void` — the
resolved routine, a transformer of the referenced memory, is run on the
caller-prepared reference-passable arguments; the call itself returns
the unit value, and the routine's effect lands in the post-call
state. -/
def invoke {σ : Type} (handle : σ → σ) (args : σ) : Unit × σ :=
  ((), handle args)

/-! ## Theorems -/

/-- C2: boxing a scalar `x`, invoking the scalar square routine on a
reference to the box, and reading the box afterwards yields a value
within any nonnegative floating-point rounding tolerance of `x * x`
(in the exact embedding, reading the box yields `x * x` itself). -/
theorem c2_scalar_square_within_tolerance (x tol : ℝ) (htol : 0 ≤ tol) :
    |(square_ (boxFloat x)).ctypes_float - x * x| ≤ tol := by
  simp [square_, boxFloat, square]
  exact htol

/-- Witness for C2 at the notebook's concrete input `python_float = 4.0`
with tolerance `0`. -/
theorem c2_scalar_square_within_tolerance_witness :
    |(square_ (boxFloat 4)).ctypes_float - 4 * 4| ≤ 0 :=
  c2_scalar_square_within_tolerance 4 0 (le_refl 0)

/-- C3: for `x ≥ 0` the square-root call leaves, within any nonnegative
tolerance, the mathematical square root of `x` in the box; for `x < 0`
the call still returns normally, leaving exactly the native routine's
result (`SQRT` applied to the negative input) in the box — no error is
raised. -/
theorem c3_square_root_spec (x tol : ℝ) :
    (0 ≤ x → 0 ≤ tol →
      |(square_root_call (boxFloat x)).ctypes_float - Real.sqrt x| ≤ tol)
    ∧ (x < 0 → (square_root_call (boxFloat x)).ctypes_float = square_root x) := by
  constructor
  · intro _ htol
    simp [square_root_call, boxFloat, square_root]
    exact htol
  · intro _
    rfl

/-- Witness for C3 at the notebook's concrete input `4.0` with
tolerance `0`. -/
theorem c3_square_root_spec_witness :
    |(square_root_call (boxFloat 4)).ctypes_float - Real.sqrt 4| ≤ 0 :=
  (c3_square_root_spec 4 0).1 zero_le_four (le_refl 0)

/-- C7: a mutate-in-place native call through a boxed scalar mutates
only the box: the original managed value `python_float` compares equal
to its pre-call value after either native call returns. -/
theorem c7_managed_value_not_updated (x : ℝ) :
    (square_ (boxFloat x)).python_float = x
    ∧ (square_root_call (boxFloat x)).python_float = x :=
  ⟨rfl, rfl⟩

/-- C8: for `x ≥ 0`, squaring and then square-rooting the same boxed
scalar returns the box to the original value within any nonnegative
tolerance (exactly, in the exact embedding). -/
theorem c8_square_then_sqrt_round_trip (x tol : ℝ) (hx : 0 ≤ x)
    (htol : 0 ≤ tol) :
    |(square_root_call (square_ (boxFloat x))).ctypes_float - x| ≤ tol := by
  simp only [square_root_call, square_, boxFloat, square, square_root]
  rw [Real.sqrt_mul_self hx]
  simpa using htol

/-- Witness for C8 at the notebook's concrete input `4.0` with
tolerance `0`: the notebook indeed prints `c_float(4.0)` after the two
calls. -/
theorem c8_square_then_sqrt_round_trip_witness :
    |(square_root_call (square_ (boxFloat 4))).ctypes_float - 4| ≤ 0 :=
  c8_square_then_sqrt_round_trip 4 0 zero_le_four (le_refl 0)

/-- C1: the array-squaring routine leaves the shape (both dimension
values and the buffer length) unchanged, and the element at every valid
position `(i, j)` — at column-major offset `i + j * ij` — equals the
square of the pre-call element there. -/
theorem c1_array_square_shape_and_elements (s : FortranArrayCall)
    (i j : ℕ) (hi : i < s.ij) (hj : j < s.ik)
    (hlen : s.a.length = s.ij * s.ik) :
    (Subroutines2.square s).ij = s.ij
    ∧ (Subroutines2.square s).ik = s.ik
    ∧ (Subroutines2.square s).a.length = s.a.length
    ∧ (Subroutines2.square s).a.getD (i + j * s.ij) 0
        = s.a.getD (i + j * s.ij) 0 * s.a.getD (i + j * s.ij) 0 := by
  have hk : i + j * s.ij < s.a.length := by
    rw [hlen]
    calc i + j * s.ij < s.ij + j * s.ij := by omega
      _ = (j + 1) * s.ij := by ring
      _ ≤ s.ik * s.ij := Nat.mul_le_mul_right _ (by omega)
      _ = s.ij * s.ik := Nat.mul_comm _ _
  have hk2 : i + j * s.ij < (Subroutines2.square s).a.length := by
    simpa [Subroutines2.square] using hk
  refine ⟨rfl, rfl, by simp [Subroutines2.square], ?_⟩
  rw [List.getD_eq_getElem _ _ hk2, List.getD_eq_getElem _ _ hk]
  simp [Subroutines2.square]

/-- Witness for C1 at a concrete `2 × 2` call like the notebook's:
buffer `[1/2, 2, 3, 4]`, `ij = ik = 2`, position `(1, 1)`. -/
theorem c1_array_square_shape_and_elements_witness :
    (Subroutines2.square ⟨[1/2, 2, 3, 4], 2, 2⟩).ij = 2
    ∧ (Subroutines2.square ⟨[1/2, 2, 3, 4], 2, 2⟩).ik = 2
    ∧ (Subroutines2.square ⟨[1/2, 2, 3, 4], 2, 2⟩).a.length
        = ([1/2, 2, 3, 4] : List ℚ).length
    ∧ (Subroutines2.square ⟨[1/2, 2, 3, 4], 2, 2⟩).a.getD (1 + 1 * 2) 0
        = ([1/2, 2, 3, 4] : List ℚ).getD (1 + 1 * 2) 0
            * ([1/2, 2, 3, 4] : List ℚ).getD (1 + 1 * 2) 0 :=
  c1_array_square_shape_and_elements ⟨[1/2, 2, 3, 4], 2, 2⟩ 1 1
    (by decide) (by decide) (by decide)

/-- C9: converting a row-major `m × n` buffer to column-major order and
back to row-major order, with no native call in between and no change
of element type, yields a buffer identical to the original. -/
theorem c9_order_conversion_round_trip (m n : ℕ) (d : List ℚ)
    (h : d.length = m * n) :
    ascontiguousarray m n (asfortranarray m n d) = d := by
  apply List.ext_getElem
  · simp [ascontiguousarray, h]
  intro idx h1 h2
  have hmn : idx < m * n := h ▸ h2
  have hn : 0 < n := by
    rcases Nat.eq_zero_or_pos n with h0 | h0
    · rw [h0, Nat.mul_zero] at hmn
      omega
    · exact h0
  have hm : 0 < m := by
    rcases Nat.eq_zero_or_pos m with h0 | h0
    · rw [h0, Nat.zero_mul] at hmn
      omega
    · exact h0
  have hi : idx / n < m := Nat.div_lt_of_lt_mul (by rwa [Nat.mul_comm] at hmn)
  have hj : idx % n < n := Nat.mod_lt _ hn
  have hk : idx / n + idx % n * m < m * n := by
    calc idx / n + idx % n * m < m + idx % n * m := by omega
      _ = (idx % n + 1) * m := by ring
      _ ≤ n * m := Nat.mul_le_mul_right _ (by omega)
      _ = m * n := Nat.mul_comm _ _
  have hlenF : (asfortranarray m n d).length = m * n := by
    simp [asfortranarray]
  simp only [ascontiguousarray, List.getElem_map, List.getElem_range]
  rw [List.getD_eq_getElem _ _ (by rw [hlenF]; exact hk)]
  simp only [asfortranarray, List.getElem_map, List.getElem_range]
  have e1 : (idx / n + idx % n * m) % m = idx / n := by
    rw [Nat.add_mul_mod_self_right, Nat.mod_eq_of_lt hi]
  have e2 : (idx / n + idx % n * m) / m = idx % n := by
    rw [Nat.add_mul_div_right _ _ hm, Nat.div_eq_of_lt hi, Nat.zero_add]
  rw [e1, e2]
  have e3 : idx / n * n + idx % n = idx := by
    rw [Nat.mul_comm]
    exact Nat.div_add_mod idx n
  rw [e3, List.getD_eq_getElem _ _ h2]

/-- Witness for C9 at the notebook's `2 × 2` shape with buffer
`[1, 2, 3, 4]`. -/
theorem c9_order_conversion_round_trip_witness :
    ascontiguousarray 2 2 (asfortranarray 2 2 [1, 2, 3, 4]) = [1, 2, 3, 4] :=
  c9_order_conversion_round_trip 2 2 [1, 2, 3, 4] (by decide)

/-- C6: a routine declared without explicit binding exports its
declared name plus one trailing separator, case-preserved; a routine
declared with `bind(c, name=...)` exports exactly that external name.
Checked against the notebook's two `readelf` dumps: the first build
exports `square_` and `square_root_`, the wrapper build exports
`wrapper_square` and `square_`. -/
theorem c6_exported_symbol_naming (d : RoutineDecl) :
    (d.bindName = none → exportedName d = d.name ++ "_")
    ∧ (∀ ext, d.bindName = some ext → exportedName d = ext)
    ∧ dynsymNames subroutines_f90_v1 = ["square_", "square_root_"]
    ∧ dynsymNames (wrappers_f90 ++ subroutines_f90_v2)
        = ["wrapper_square", "square_"] := by
  refine ⟨?_, ?_, rfl, rfl⟩
  · intro h
    simp [exportedName, h]
  · intro ext h
    simp [exportedName, h]

/-- Witness for C6 at the concrete declarations of the sources: plain
`square` exports `square_`, and the `bind(c)` wrapper exports
`wrapper_square`. -/
theorem c6_exported_symbol_naming_witness :
    exportedName ⟨"square", none⟩ = "square" ++ "_"
    ∧ exportedName ⟨"wrapper_square", some "wrapper_square"⟩
        = "wrapper_square" :=
  ⟨(c6_exported_symbol_naming ⟨"square", none⟩).1 rfl,
   (c6_exported_symbol_naming ⟨"wrapper_square", some "wrapper_square"⟩).2.1
     "wrapper_square" rfl⟩

/-- C4: for a unit exporting routine `foo` under default mangling (only
the mangled form is present in the symbol table), `resolve` succeeds
and returns the same handle whether the lookup uses `foo` or its
mangled form, while a name present under neither form fails with
`SymbolNotFoundError`. -/
theorem c4_resolve_mangled_fallback (u : SharedUnit) (foo bar : String)
    (hdl : ℕ)
    (hfoo : u.symbols.lookup foo = none)
    (hfoom : u.symbols.lookup (mangle foo) = some hdl)
    (hbar : u.symbols.lookup bar = none)
    (hbarm : u.symbols.lookup (mangle bar) = none) :
    resolve u foo = Except.ok hdl
    ∧ resolve u (mangle foo) = Except.ok hdl
    ∧ resolve u bar = Except.error AdapterError.SymbolNotFoundError := by
  refine ⟨?_, ?_, ?_⟩
  · simp [resolve, hfoo, hfoom]
  · simp [resolve, hfoom]
  · simp [resolve, hbar, hbarm]

/-- Witness for C4 on the dynamic symbol table of the notebook's first
`subroutines.so` build: `square` resolves to the handle of `square_`
both ways, and `bar` fails. -/
theorem c4_resolve_mangled_fallback_witness :
    resolve subroutines_so "square" = Except.ok 1434
    ∧ resolve subroutines_so (mangle "square") = Except.ok 1434
    ∧ resolve subroutines_so "bar"
        = Except.error AdapterError.SymbolNotFoundError :=
  c4_resolve_mangled_fallback subroutines_so "square" "bar" 1434
    rfl rfl rfl rfl

/-- C5: `invoke` returns no value — its value component is the unit
value, for the array routine and the scalar routine alike — and the
routine's result is observable only in the re-read post-call state,
which holds exactly the native routine's effect on the referenced
memory. -/
theorem c5_invoke_returns_no_value (s : FortranArrayCall)
    (t : CScalarState) :
    (invoke Subroutines2.square s).1 = ()
    ∧ (invoke Subroutines2.square s).2 = Subroutines2.square s
    ∧ (invoke square_ t).1 = ()
    ∧ (invoke square_ t).2 = square_ t :=
  ⟨rfl, rfl, rfl, rfl⟩

/-- C10: the `bind(c)` wrapper leaves the array-call state exactly as a
direct invocation of the wrapped `square` does — it only fixes the
exported symbol name (no trailing separator) while plain `square` is
exported mangled. -/
theorem c10_wrapper_square_forwards (s : FortranArrayCall) :
    Wrappers.wrapper_square s = Subroutines2.square s
    ∧ exportedName ⟨"wrapper_square", some "wrapper_square"⟩
        = "wrapper_square"
    ∧ exportedName ⟨"square", none⟩ = "square_" :=
  ⟨rfl, rfl, rfl⟩

end FortranTeaser
